import Mathlib

/-!
Verification of the sqlite-snap backup lifecycle manager.

The definitions below are a shallow embedding of `src/lib/index.js`
(class `SQLiteBackup`).  External collaborators (the `sqlite3` engine
commands, `shasum`, the filesystem) are modelled as explicit oracles in
an `Env` record, and the filesystem as an association list from paths to
byte contents.  JavaScript truthiness of the numeric options
`retentionDays` / `maxBackups` is modelled by treating the value `0` as
the absent/falsy case, which is observationally identical in the source
(the numbers are only ever used behind a truthiness guard).  Time values
(`Date.now()`, `stats.mtime`) are modelled as exact rationals.
-/

namespace SqliteSnap

/-- JS `String.prototype.endsWith`, modelled on character lists. -/
def strEndsWith (s suffix : String) : Bool :=
  suffix.data.isSuffixOf s.data

/-- `new Date().toISOString().replace(/[:.]/g, '-')`: every colon and dot
becomes a dash. -/
def sanitizeTimestamp (s : String) : String :=
  ⟨s.data.map (fun c => if c = ':' || c = '.' then '-' else c)⟩

/-- Trim leading and trailing whitespace (JS `String.prototype.trim`). -/
def strTrim (s : String) : String :=
  ⟨((s.data.dropWhile Char.isWhitespace).reverse.dropWhile Char.isWhitespace).reverse⟩

/-- Drop the last `n` characters (JS slicing / node extension stripping). -/
def strDropRight (s : String) (n : ℕ) : String :=
  ⟨s.data.take (s.data.length - n)⟩

/-- Split a character list at every occurrence of `sep`. -/
def splitCharAux (sep : Char) : List Char → List Char → List (List Char)
  | [], acc => [acc.reverse]
  | c :: cs, acc =>
    if c = sep then acc.reverse :: splitCharAux sep cs []
    else splitCharAux sep cs (c :: acc)

/-- Split a string at every occurrence of the character `sep`. -/
def splitOnChar (sep : Char) (s : String) : List String :=
  (splitCharAux sep s.data []).map (fun l => ⟨l⟩)

/-- `path.join` for a single separator level, as used by the manager. -/
def joinPath (dir name : String) : String := dir ++ "/" ++ name

/-- Interleave path components with the separator. -/
def intercalateSlash : List String → String
  | [] => ""
  | [x] => x
  | x :: xs => x ++ "/" ++ intercalateSlash xs

/-- `path.dirname`: everything before the last separator. -/
def dirname (p : String) : String :=
  let parts := splitOnChar '/' p
  if parts.length ≤ 1 then "." else intercalateSlash parts.dropLast

/-- `path.basename(p, ext)`: last path component, with `ext` stripped when it
is a proper suffix (node keeps the name when it equals the extension). -/
def basenameStrip (p ext : String) : String :=
  let base := (splitOnChar '/' p).getLastD p
  if strEndsWith base ext = true ∧ base ≠ ext then strDropRight base ext.length
  else base

/-- Flat filesystem model: regular files as an association list from path to
byte content, plus a set of directories. -/
structure FS where
  files : List (String × String)
  dirs : List String
deriving DecidableEq, Repr

/-- Content of the regular file at `p`, when present. -/
def FS.lookup (fs : FS) (p : String) : Option String :=
  (fs.files.find? (fun e => e.1 == p)).map (·.2)

/-- `fs.existsSync`: a file or a directory is present at `p`. -/
def FS.pathExists (fs : FS) (p : String) : Bool :=
  (fs.lookup p).isSome || fs.dirs.contains p

/-- Create or overwrite the regular file at `p` with content `c`. -/
def FS.write (fs : FS) (p c : String) : FS :=
  { fs with files := (p, c) :: fs.files.filter (fun e => e.1 ≠ p) }

/-- `fs.unlinkSync` on a present file: drop the entry at `p`. -/
def FS.erase (fs : FS) (p : String) : FS :=
  { fs with files := fs.files.filter (fun e => e.1 ≠ p) }

/-- `fs.mkdirSync`. -/
def FS.mkdir (fs : FS) (p : String) : FS :=
  { fs with dirs := p :: fs.dirs }

/-- `fs.copyFileSync(src, tgt)`: fails when the source file is absent,
otherwise writes the source's bytes to the target. -/
def copyFile (fs : FS) (src tgt : String) : Except String FS :=
  match fs.lookup src with
  | none => .error ("ENOENT: no such file or directory, copyfile " ++ src)
  | some c => .ok (fs.write tgt c)

/-- Ambient-world oracle: clock values and the observable behaviour of the
external commands (`sqlite3 ".backup"`, `PRAGMA integrity_check`, `shasum`)
and of `fs.unlinkSync`.  Each command is a function of the file content it
reads (`none` when the source file is absent), returning either its stdout
or a thrown error message. -/
structure Env where
  nowIso : String
  nowMs : Int
  durationMs : Int
  backupCmd : Option String → Except String String
  vacuumCmd : Option String → Except String String
  checkCmd : String → Except String String
  shaCmd : String → Except String String
  unlinkErr : String → Option String

/-- The two configured paths held by a `SQLiteBackup` instance. -/
structure Config where
  databasePath : String
  backupDirectory : String
deriving DecidableEq, Repr

-- ## Retention policy engine (`cleanup`)

/-- One catalog entry as consumed by `cleanup`: filename plus the
modification time from `fs.statSync` (milliseconds, exact). -/
structure FileEntry where
  name : String
  mtime : ℚ
deriving DecidableEq, Repr

/-- `files.filter(file => file.stats.mtime < cutoffDate)` with
`cutoffDate = Date.now() - retentionDays * 24*60*60*1000`. -/
def selectByAge (files : List FileEntry) (now retentionDays : ℚ) : List FileEntry :=
  files.filter (fun f => f.mtime < now - retentionDays * 86400000)

/-- `files.sort((a, b) => b.stats.mtime - a.stats.mtime)`: stable sort,
descending by modification time (JS `Array.prototype.sort` is stable). -/
def sortFilesDesc (files : List FileEntry) : List FileEntry :=
  files.insertionSort (fun a b => b.mtime ≤ a.mtime)

/-- `files.slice(maxBackups)` after the descending sort. -/
def selectByCount (files : List FileEntry) (maxBackups : ℕ) : List FileEntry :=
  (sortFilesDesc files).drop maxBackups

/-- The `filesToRemove` selection of `cleanup`: age cutoff when
`retentionDays` is truthy, else count cap when `maxBackups` is truthy. -/
def filesToRemove (retentionDays : ℚ) (maxBackups : ℕ) (files : List FileEntry)
    (now : ℚ) : List FileEntry :=
  if retentionDays ≠ 0 then selectByAge files now retentionDays
  else if maxBackups ≠ 0 then selectByCount files maxBackups
  else []

/-- The deletion loop of `cleanup`: attempts `fs.unlinkSync` on every selected
file independently, collecting removed names and per-file error strings in
order; `delFail` gives the thrown error message when deletion fails. -/
def deleteLoop (delFail : String → Option String) :
    List FileEntry → List String × List String
  | [] => ([], [])
  | f :: rest =>
    let acc := deleteLoop delFail rest
    match delFail f.name with
    | none => (f.name :: acc.1, acc.2)
    | some m => (acc.1, ("Failed to remove " ++ f.name ++ ": " ++ m) :: acc.2)

/-- The success shape returned by `cleanup`. -/
structure CleanupResult where
  success : Bool
  removed : ℕ
  removedFiles : List String
  errors : List String
  totalFiles : ℕ
  remainingFiles : ℕ
deriving DecidableEq, Repr

/-- `SQLiteBackup.cleanup` over a given catalog: the guard
`if (!retentionDays && !maxBackups) throw ...` sits outside the `try`, so it
surfaces as a fault (`Except.error`); otherwise the selected files are
deleted best-effort and a success result is returned. -/
def cleanup (retentionDays : ℚ) (maxBackups : ℕ) (files : List FileEntry)
    (now : ℚ) (delFail : String → Option String) : Except String CleanupResult :=
  if retentionDays = 0 ∧ maxBackups = 0 then
    .error "Either retentionDays or maxBackups must be specified"
  else
    let toRemove := filesToRemove retentionDays maxBackups files now
    let res := deleteLoop delFail toRemove
    .ok { success := true
          removed := res.1.length
          removedFiles := res.1
          errors := res.2
          totalFiles := files.length
          remainingFiles := files.length - res.1.length }

-- ## Constructor

/-- The loosely-typed options bag accepted by `new SQLiteBackup(options)`. -/
structure CtorOptions where
  databasePath : Option String
  backupDirectory : Option String := none
  createBackupDir : Bool := true

/-- The `SQLiteBackup` constructor: faults on a falsy `databasePath` or on a
nonexistent database file, resolves the backup directory (sibling `backups`
directory by default) and creates it when requested and absent.  `path.resolve`
is modelled as the identity on already-absolute paths. -/
def construct (opts : CtorOptions) (fs : FS) : Except String (Config × FS) :=
  match opts.databasePath with
  | none => .error "Database path is required"
  | some p =>
    if p = "" then .error "Database path is required"
    else
      let databasePath := p
      let backupDirectory :=
        match opts.backupDirectory with
        | some b => b
        | none => joinPath (dirname databasePath) "backups"
      if FS.pathExists fs databasePath = false then
        .error ("Database file not found: " ++ databasePath)
      else
        let fs1 :=
          if opts.createBackupDir ∧ FS.pathExists fs backupDirectory = false then
            fs.mkdir backupDirectory
          else fs
        .ok ({ databasePath := databasePath, backupDirectory := backupDirectory }, fs1)

-- ## Integrity verifier and checksum calculator

/-- `SQLiteBackup.verifyBackup`: false when no file is at the path, when the
`sqlite3 "PRAGMA integrity_check;"` invocation errors (tool unavailable,
non-zero exit, path is a directory), or when the trimmed stdout is not the
canonical `ok` token. -/
def verifyBackup (env : Env) (fs : FS) (backupPath : String) : Bool :=
  if FS.pathExists fs backupPath = false then false
  else
    match fs.lookup backupPath with
    | none => false
    | some content =>
      match env.checkCmd content with
      | .error _ => false
      | .ok out => strTrim out == "ok"

/-- `SQLiteBackup._calculateChecksum`: first whitespace-delimited field of the
`shasum -a 256` stdout, or `null` on any failure. -/
def calculateChecksum (env : Env) (fs : FS) (p : String) : Option String :=
  match fs.lookup p with
  | none => none
  | some c =>
    match env.shaCmd c with
    | .error _ => none
    | .ok out => some ((splitOnChar ' ' out).headD "")

-- ## Snapshot producer (`createBackup`)

/-- The options bag of `createBackup`, with the source's defaults. -/
structure BackupOptions where
  filename : Option String := none
  includeTimestamp : Bool := true
  verifyIntegrity : Bool := true
  method : String := "backup"
deriving DecidableEq, Repr

/-- `SQLiteBackup._generateBackupFilename`. -/
def generateBackupFilename (databasePath : String) (custom : Option String)
    (includeTimestamp : Bool) (nowIso : String) : String :=
  match custom with
  | some c => if strEndsWith c ".db" then c else c ++ ".db"
  | none =>
    let baseName := basenameStrip databasePath ".db"
    let timestamp := if includeTimestamp then "-" ++ sanitizeTimestamp nowIso else ""
    baseName ++ "-backup" ++ timestamp ++ ".db"

/-- `SQLiteBackup._performBackup`: dispatch on the method string; `backup` and
`vacuum` run the engine's hot-copy command against the database file, `copy`
is a raw `fs.copyFileSync`, anything else throws. -/
def performBackup (env : Env) (cfg : Config) (fs : FS) (method : String)
    (backupPath : String) : Except String FS :=
  if method = "backup" then
    match env.backupCmd (fs.lookup cfg.databasePath) with
    | .error e => .error e
    | .ok c => .ok (fs.write backupPath c)
  else if method = "copy" then
    copyFile fs cfg.databasePath backupPath
  else if method = "vacuum" then
    match env.vacuumCmd (fs.lookup cfg.databasePath) with
    | .error e => .error e
    | .ok c => .ok (fs.write backupPath c)
  else
    .error ("Unknown backup method: " ++ method)

/-- The result object returned by `createBackup`: a tagged value whose
optional fields are populated on the corresponding branch. -/
structure BackupResult where
  success : Bool
  backupPath : Option String := none
  filename : Option String := none
  size : Option ℕ := none
  checksum : Option (Option String) := none
  duration : Option Int := none
  timestamp : String
  method : Option String := none
  error : Option String := none
deriving DecidableEq, Repr

/-- The `backupFileName` local of `createBackup`. -/
def backupFileNameOf (env : Env) (cfg : Config) (opts : BackupOptions) : String :=
  generateBackupFilename cfg.databasePath opts.filename opts.includeTimestamp env.nowIso

/-- The `backupPath` local of `createBackup`. -/
def backupPathOf (env : Env) (cfg : Config) (opts : BackupOptions) : String :=
  joinPath cfg.backupDirectory (backupFileNameOf env cfg opts)

/-- The `try` block of `createBackup`: each step may throw; the filesystem
state reached so far is kept alongside, since mutations before a throw
persist. -/
def createBackupTry (env : Env) (cfg : Config) (opts : BackupOptions) (fs : FS) :
    Except String BackupResult × FS :=
  match performBackup env cfg fs opts.method (backupPathOf env cfg opts) with
  | .error e => (.error e, fs)
  | .ok fs1 =>
    if opts.verifyIntegrity = true ∧ verifyBackup env fs1 (backupPathOf env cfg opts) = false then
      match env.unlinkErr (backupPathOf env cfg opts) with
      | some m => (.error m, fs1)
      | none =>
        (.error "Backup failed integrity check", fs1.erase (backupPathOf env cfg opts))
    else
      match fs1.lookup (backupPathOf env cfg opts) with
      | none =>
        (.error ("ENOENT: no such file or directory, stat " ++ backupPathOf env cfg opts),
         fs1)
      | some content =>
        (.ok { success := true
               backupPath := some (backupPathOf env cfg opts)
               filename := some (backupFileNameOf env cfg opts)
               size := some content.length
               checksum := some (calculateChecksum env fs1 (backupPathOf env cfg opts))
               duration := some env.durationMs
               timestamp := env.nowIso
               method := some opts.method }, fs1)

/-- `SQLiteBackup.createBackup`: the whole body is wrapped in `try/catch`, so
every thrown error is converted into a `success = false` result value. -/
def createBackup (env : Env) (cfg : Config) (opts : BackupOptions) (fs : FS) :
    BackupResult × FS :=
  match createBackupTry env cfg opts fs with
  | (.ok r, fs1) => (r, fs1)
  | (.error e, fs1) =>
    ({ success := false, error := some e, timestamp := env.nowIso }, fs1)

-- ## Restore orchestrator

/-- The options bag of `restore`, with the source's defaults. -/
structure RestoreOptions where
  targetPath : Option String := none
  verifyBefore : Bool := true
  createBackupBeforeRestore : Bool := true
deriving DecidableEq, Repr

/-- The result object returned by `restore`. -/
structure RestoreResult where
  success : Bool
  restoredFrom : Option String := none
  restoredTo : Option String := none
  preRestoreBackup : Option String := none
  timestamp : String
  error : Option String := none
deriving DecidableEq, Repr

/-- The `try` block of `restore`: pre-restore verification, optional safety
snapshot of the current database via `createBackup`, raw copy onto the target
path, post-restore verification. -/
def restoreTry (env : Env) (cfg : Config) (backupPath : String)
    (opts : RestoreOptions) (fs : FS) : Except String RestoreResult × FS :=
  let targetPath := opts.targetPath.getD cfg.databasePath
  if opts.verifyBefore = true ∧ verifyBackup env fs backupPath = false then
    (.error "Backup file failed integrity check", fs)
  else
    let step2 : Except String (Option String) × FS :=
      if opts.createBackupBeforeRestore ∧ FS.pathExists fs targetPath = true then
        let res := createBackup env cfg
          { filename := some ("pre-restore-backup-" ++ toString env.nowMs ++ ".db")
            includeTimestamp := false } fs
        if res.1.success then (.ok res.1.backupPath, res.2)
        else
          (.error ("Failed to create pre-restore backup: " ++ (res.1.error.getD "")), res.2)
      else (.ok none, fs)
    match step2 with
    | (.error e, fs1) => (.error e, fs1)
    | (.ok currentBackupPath, fs1) =>
      match copyFile fs1 backupPath targetPath with
      | .error e => (.error e, fs1)
      | .ok fs2 =>
        if verifyBackup env fs2 targetPath = false then
          (.error "Restored database failed integrity check", fs2)
        else
          (.ok { success := true
                 restoredFrom := some backupPath
                 restoredTo := some targetPath
                 preRestoreBackup := currentBackupPath
                 timestamp := env.nowIso }, fs2)

/-- `SQLiteBackup.restore`: the whole body is wrapped in `try/catch`, so every
thrown error is converted into a `success = false` result value. -/
def restore (env : Env) (cfg : Config) (backupPath : String)
    (opts : RestoreOptions) (fs : FS) : RestoreResult × FS :=
  match restoreTry env cfg backupPath opts fs with
  | (.ok r, fs1) => (r, fs1)
  | (.error e, fs1) =>
    ({ success := false, error := some e, timestamp := env.nowIso }, fs1)

-- ## Concrete fixtures used by witnesses

/-- An environment whose integrity check always reports corruption; backups
copy the source bytes, deletions succeed. -/
def badCheckEnv : Env :=
  { nowIso := "T", nowMs := 0, durationMs := 0
    backupCmd := fun c => .ok (c.getD "")
    vacuumCmd := fun c => .ok (c.getD "")
    checkCmd := fun _ => .ok "*** corrupt ***"
    shaCmd := fun _ => .ok "d  f"
    unlinkErr := fun _ => none }

/-- A live database plus one snapshot file. -/
def liveFS : FS := ⟨[("/data/app.db", "LIVE"), ("/data/backups/s.db", "SNAP")], []⟩

/-- The configuration pointing at the fixture paths. -/
def mainCfg : Config := ⟨"/data/app.db", "/data/backups"⟩

/-- Backup options naming the backup file `b.db` explicitly. -/
def namedOpts : BackupOptions := { filename := some "b.db", includeTimestamp := false }

/-- The state after the fixture backup of `liveFS` was produced. -/
def wroteFS : FS :=
  ⟨[("/data/backups/b.db", "LIVE"), ("/data/app.db", "LIVE"),
    ("/data/backups/s.db", "SNAP")], []⟩

-- ## Helper lemmas

instance : IsTotal FileEntry (fun a b => b.mtime ≤ a.mtime) :=
  ⟨fun a b => le_total b.mtime a.mtime⟩

instance : IsTrans FileEntry (fun a b => b.mtime ≤ a.mtime) :=
  ⟨fun _ _ _ hab hbc => le_trans hbc hab⟩

theorem sortFilesDesc_perm (files : List FileEntry) :
    (sortFilesDesc files).Perm files :=
  List.perm_insertionSort _ files

theorem sortFilesDesc_sorted (files : List FileEntry) :
    (sortFilesDesc files).Sorted (fun a b => b.mtime ≤ a.mtime) :=
  List.sorted_insertionSort _ files

theorem sortFilesDesc_pairwise_lt (files : List FileEntry)
    (hd : files.Pairwise (fun a b => a.mtime ≠ b.mtime)) :
    (sortFilesDesc files).Pairwise (fun a b => b.mtime < a.mtime) := by
  have hperm := sortFilesDesc_perm files
  have hne : (sortFilesDesc files).Pairwise (fun a b => a.mtime ≠ b.mtime) :=
    (hperm.pairwise_iff (fun h => Ne.symm h)).mpr hd
  exact ((sortFilesDesc_sorted files).and hne).imp
    (fun h => lt_of_le_of_ne h.1 (fun e => h.2 e.symm))

theorem deleteLoop_fst (d : String → Option String) (l : List FileEntry) :
    (deleteLoop d l).1 = (l.filter (fun f => (d f.name).isNone)).map (·.name) := by
  induction l with
  | nil => rfl
  | cons f rest ih =>
    simp only [deleteLoop]
    cases hd : d f.name <;> simp [List.filter_cons, hd, ih]

theorem deleteLoop_length_split (d : String → Option String) (l : List FileEntry) :
    (deleteLoop d l).1.length + (deleteLoop d l).2.length = l.length := by
  induction l with
  | nil => rfl
  | cons f rest ih =>
    simp only [deleteLoop]
    cases hd : d f.name <;> simp [hd] <;> omega

theorem deleteLoop_error_mem (d : String → Option String) (l : List FileEntry)
    (f : FileEntry) (m : String) (hf : f ∈ l) (hm : d f.name = some m) :
    ("Failed to remove " ++ f.name ++ ": " ++ m) ∈ (deleteLoop d l).2 := by
  induction l with
  | nil => cases hf
  | cons g rest ih =>
    simp only [deleteLoop]
    rcases List.mem_cons.mp hf with rfl | hf1
    · rw [hm]
      exact List.mem_cons_self _ _
    · cases hd : d g.name <;> simp only [hd]
      · exact ih hf1
      · exact List.mem_cons_of_mem _ (ih hf1)

theorem deleteLoop_all_ok (l : List FileEntry) :
    deleteLoop (fun _ => none) l = (l.map (·.name), []) := by
  induction l with
  | nil => rfl
  | cons f rest ih => simp [deleteLoop, ih]

-- ## Claims

/-- C1 (counterexample): with a catalog of exactly one backup file,
`cleanup({ maxBackups: 0 })` does not succeed and does not remove the file:
`0` is falsy in JavaScript, so the guard throws the configuration error.  The
claim states the call succeeds with `remainingFiles = 0`. -/
theorem cleanup_maxBackups_zero_counterexample :
    cleanup 0 0 [⟨"backup1.db", 0⟩] 0 (fun _ => none) =
      .error "Either retentionDays or maxBackups must be specified" := rfl

/-- C1 (amended): for a snapshot directory containing exactly one backup file,
calling `cleanup` with `maxBackups = 0` and no `retentionDays` faults with the
configuration error `Either retentionDays or maxBackups must be specified`
before touching any file; nothing is removed and no result value is
returned. -/
theorem cleanup_maxBackups_zero_faults (f : FileEntry) (now : ℚ)
    (delFail : String → Option String) :
    cleanup 0 0 [f] now delFail =
      .error "Either retentionDays or maxBackups must be specified" := rfl

/-- C2: for every catalog and every positive `retentionDays`, the age-based
selection of `cleanup` is exactly the set of files whose modification time is
strictly before `now - retentionDays` days; a file exactly at the cutoff is
retained. -/
theorem cleanup_age_selection_exact (files : List FileEntry) (now d : ℚ)
    (mb : ℕ) (hd : 0 < d) :
    filesToRemove d mb files now = selectByAge files now d
    ∧ (∀ f, f ∈ selectByAge files now d ↔
        f ∈ files ∧ f.mtime < now - d * 86400000)
    ∧ ∀ f, f ∈ files → f.mtime = now - d * 86400000 →
        f ∉ selectByAge files now d := by
  have hchar : ∀ f, f ∈ selectByAge files now d ↔
      f ∈ files ∧ f.mtime < now - d * 86400000 := by
    intro f
    unfold selectByAge
    rw [List.mem_filter]
    simp only [decide_eq_true_eq]
  refine ⟨?_, hchar, ?_⟩
  · unfold filesToRemove
    rw [if_pos hd.ne']
  · intro f _ heq hmem
    exact absurd ((hchar f).mp hmem).2 (by rw [heq]; exact lt_irrefl _)

/-- C2 witness: two files, one strictly older than the one-day cutoff and one
exactly at it. -/
theorem cleanup_age_selection_exact_witness :
    filesToRemove 1 0 [⟨"old.db", -1⟩, ⟨"edge.db", 0⟩] 86400000 =
      selectByAge [⟨"old.db", -1⟩, ⟨"edge.db", 0⟩] 86400000 1
    ∧ (∀ f, f ∈ selectByAge [⟨"old.db", -1⟩, ⟨"edge.db", 0⟩] 86400000 1 ↔
        f ∈ [⟨"old.db", -1⟩, ⟨"edge.db", 0⟩] ∧ f.mtime < 86400000 - 1 * 86400000)
    ∧ ∀ f, f ∈ [⟨"old.db", -1⟩, ⟨"edge.db", 0⟩] →
        f.mtime = 86400000 - 1 * 86400000 →
        f ∉ selectByAge [⟨"old.db", -1⟩, ⟨"edge.db", 0⟩] 86400000 1 :=
  cleanup_age_selection_exact [⟨"old.db", -1⟩, ⟨"edge.db", 0⟩] 86400000 1 0
    (by norm_num)

/-- C3: for every catalog and every positive `maxCount = k`, the count-based
selection of `cleanup` stably sorts the entries descending by modification
time (the sort is a pure, hence deterministic, function of the catalog, with
ties kept in catalog order per JS stable sort), keeps the first `k`, and
selects everything beyond index `k`; with pairwise-distinct modification
times and `k < N`, exactly `N - k` files are removed and every survivor is
more recently modified than every removed file. -/
theorem cleanup_count_selection_exact (files : List FileEntry) (k : ℕ)
    (now : ℚ) (hk : 0 < k) :
    filesToRemove 0 k files now = selectByCount files k
    ∧ (sortFilesDesc files).Perm files
    ∧ (sortFilesDesc files).Sorted (fun a b => b.mtime ≤ a.mtime)
    ∧ selectByCount files k = (sortFilesDesc files).drop k
    ∧ cleanup 0 k files now (fun _ => none) =
        .ok { success := true
              removed := (selectByCount files k).length
              removedFiles := (selectByCount files k).map (·.name)
              errors := []
              totalFiles := files.length
              remainingFiles := files.length - (selectByCount files k).length }
    ∧ (files.Pairwise (fun a b => a.mtime ≠ b.mtime) → k < files.length →
        (selectByCount files k).length = files.length - k
        ∧ ∀ r ∈ selectByCount files k, ∀ s ∈ (sortFilesDesc files).take k,
            r.mtime < s.mtime) := by
  refine ⟨?_, sortFilesDesc_perm files, sortFilesDesc_sorted files, rfl, ?_, ?_⟩
  · unfold filesToRemove
    rw [if_neg (by simp), if_pos hk.ne']
  · unfold cleanup
    rw [if_neg (by simp [hk.ne'])]
    simp only [filesToRemove, if_neg (by simp : ¬ ((0 : ℚ) ≠ 0)), if_pos hk.ne',
      deleteLoop_all_ok, List.length_map]
  · intro hd hkN
    have hlen : (sortFilesDesc files).length = files.length :=
      (sortFilesDesc_perm files).length_eq
    constructor
    · unfold selectByCount
      rw [List.length_drop, hlen]
    · have hpl := sortFilesDesc_pairwise_lt files hd
      rw [← List.take_append_drop k (sortFilesDesc files)] at hpl
      have h3 := (List.pairwise_append.mp hpl).2.2
      intro r hr s hs
      exact h3 s hs r hr

/-- C3 witness: three files with distinct times, `k = 2`: the single oldest
file is selected, both survivors are newer. -/
theorem cleanup_count_selection_exact_witness :
    filesToRemove 0 2 [⟨"a.db", 1⟩, ⟨"c.db", 3⟩, ⟨"b.db", 2⟩] 0 =
      selectByCount [⟨"a.db", 1⟩, ⟨"c.db", 3⟩, ⟨"b.db", 2⟩] 2
    ∧ (sortFilesDesc [⟨"a.db", 1⟩, ⟨"c.db", 3⟩, ⟨"b.db", 2⟩]).Perm
        [⟨"a.db", 1⟩, ⟨"c.db", 3⟩, ⟨"b.db", 2⟩]
    ∧ (sortFilesDesc [⟨"a.db", 1⟩, ⟨"c.db", 3⟩, ⟨"b.db", 2⟩]).Sorted
        (fun a b => b.mtime ≤ a.mtime)
    ∧ selectByCount [⟨"a.db", 1⟩, ⟨"c.db", 3⟩, ⟨"b.db", 2⟩] 2 =
        (sortFilesDesc [⟨"a.db", 1⟩, ⟨"c.db", 3⟩, ⟨"b.db", 2⟩]).drop 2
    ∧ cleanup 0 2 [⟨"a.db", 1⟩, ⟨"c.db", 3⟩, ⟨"b.db", 2⟩] 0 (fun _ => none) =
        .ok { success := true
              removed := (selectByCount [⟨"a.db", 1⟩, ⟨"c.db", 3⟩, ⟨"b.db", 2⟩] 2).length
              removedFiles :=
                (selectByCount [⟨"a.db", 1⟩, ⟨"c.db", 3⟩, ⟨"b.db", 2⟩] 2).map (·.name)
              errors := []
              totalFiles := ([⟨"a.db", 1⟩, ⟨"c.db", 3⟩, ⟨"b.db", 2⟩] : List FileEntry).length
              remainingFiles :=
                ([⟨"a.db", 1⟩, ⟨"c.db", 3⟩, ⟨"b.db", 2⟩] : List FileEntry).length -
                  (selectByCount [⟨"a.db", 1⟩, ⟨"c.db", 3⟩, ⟨"b.db", 2⟩] 2).length }
    ∧ (([⟨"a.db", 1⟩, ⟨"c.db", 3⟩, ⟨"b.db", 2⟩] : List FileEntry).Pairwise
          (fun a b => a.mtime ≠ b.mtime) →
        2 < ([⟨"a.db", 1⟩, ⟨"c.db", 3⟩, ⟨"b.db", 2⟩] : List FileEntry).length →
        (selectByCount [⟨"a.db", 1⟩, ⟨"c.db", 3⟩, ⟨"b.db", 2⟩] 2).length =
            ([⟨"a.db", 1⟩, ⟨"c.db", 3⟩, ⟨"b.db", 2⟩] : List FileEntry).length - 2
        ∧ ∀ r ∈ selectByCount [⟨"a.db", 1⟩, ⟨"c.db", 3⟩, ⟨"b.db", 2⟩] 2,
            ∀ s ∈ (sortFilesDesc [⟨"a.db", 1⟩, ⟨"c.db", 3⟩, ⟨"b.db", 2⟩]).take 2,
              r.mtime < s.mtime) :=
  cleanup_count_selection_exact [⟨"a.db", 1⟩, ⟨"c.db", 3⟩, ⟨"b.db", 2⟩] 2 0
    (by norm_num)

/-- C4: whenever the retention guard passes, `cleanup` deletes each selected
file independently: it returns a success result in which a failed deletion is
recorded as a per-file error string, every selected file is accounted for
(`removed + errors.length` equals the selected count, so the batch is never
aborted partway), `removed` counts exactly the successful deletions, and
`remainingFiles = totalFiles - removed`. -/
theorem cleanup_partial_failure_bookkeeping (rd : ℚ) (mb : ℕ)
    (files : List FileEntry) (now : ℚ) (delFail : String → Option String)
    (h : ¬(rd = 0 ∧ mb = 0)) :
    ∃ r, cleanup rd mb files now delFail = .ok r
      ∧ r.success = true
      ∧ r.removed =
          ((filesToRemove rd mb files now).filter
            (fun f => (delFail f.name).isNone)).length
      ∧ r.removed + r.errors.length = (filesToRemove rd mb files now).length
      ∧ r.totalFiles = files.length
      ∧ r.remainingFiles = files.length - r.removed
      ∧ ∀ f ∈ filesToRemove rd mb files now, ∀ m, delFail f.name = some m →
          ("Failed to remove " ++ f.name ++ ": " ++ m) ∈ r.errors := by
  unfold cleanup
  rw [if_neg h]
  refine ⟨_, rfl, rfl, ?_, ?_, rfl, rfl, ?_⟩
  · rw [deleteLoop_fst, List.length_map]
  · exact deleteLoop_length_split delFail _
  · intro f hf m hm
    exact deleteLoop_error_mem delFail _ f m hf hm

/-- C4 witness: `maxBackups = 1` over three files where deleting `a.db` fails:
the failure is recorded, the other selected file is still removed, and the
counts reconcile. -/
theorem cleanup_partial_failure_bookkeeping_witness :
    ∃ r, cleanup 0 1 [⟨"a.db", 1⟩, ⟨"b.db", 2⟩, ⟨"c.db", 3⟩] 0
          (fun n => if n = "a.db" then some "EPERM" else none) = .ok r
      ∧ r.success = true
      ∧ r.removed =
          ((filesToRemove 0 1 [⟨"a.db", 1⟩, ⟨"b.db", 2⟩, ⟨"c.db", 3⟩] 0).filter
            (fun f => ((if f.name = "a.db" then some "EPERM" else none) :
              Option String).isNone)).length
      ∧ r.removed + r.errors.length =
          (filesToRemove 0 1 [⟨"a.db", 1⟩, ⟨"b.db", 2⟩, ⟨"c.db", 3⟩] 0).length
      ∧ r.totalFiles = ([⟨"a.db", 1⟩, ⟨"b.db", 2⟩, ⟨"c.db", 3⟩] : List FileEntry).length
      ∧ r.remainingFiles =
          ([⟨"a.db", 1⟩, ⟨"b.db", 2⟩, ⟨"c.db", 3⟩] : List FileEntry).length - r.removed
      ∧ ∀ f ∈ filesToRemove 0 1 [⟨"a.db", 1⟩, ⟨"b.db", 2⟩, ⟨"c.db", 3⟩] 0,
          ∀ m, (if f.name = "a.db" then some "EPERM" else none) = some m →
            ("Failed to remove " ++ f.name ++ ": " ++ m) ∈ r.errors :=
  cleanup_partial_failure_bookkeeping 0 1 [⟨"a.db", 1⟩, ⟨"b.db", 2⟩, ⟨"c.db", 3⟩] 0
    (fun n => if n = "a.db" then some "EPERM" else none) (by norm_num)

/-- C5: when `restore` is called with `verifyBefore` enabled and the candidate
snapshot fails the integrity verifier, the call returns `success = false` and
performs no mutation: the whole filesystem state (in particular the file at
the target path) is unchanged, and no pre-restore snapshot is created. -/
theorem restore_bad_snapshot_no_mutation (env : Env) (cfg : Config)
    (bp : String) (opts : RestoreOptions) (fs : FS)
    (hv : opts.verifyBefore = true)
    (hbad : verifyBackup env fs bp = false) :
    restore env cfg bp opts fs =
      ({ success := false, error := some "Backup file failed integrity check",
         timestamp := env.nowIso }, fs)
    ∧ (restore env cfg bp opts fs).2.lookup (opts.targetPath.getD cfg.databasePath) =
        fs.lookup (opts.targetPath.getD cfg.databasePath)
    ∧ (restore env cfg bp opts fs).1.preRestoreBackup = none := by
  have h1 : restoreTry env cfg bp opts fs =
      (.error "Backup file failed integrity check", fs) := by
    unfold restoreTry
    rw [if_pos ⟨hv, hbad⟩]
  have h2 : restore env cfg bp opts fs =
      ({ success := false, error := some "Backup file failed integrity check",
         timestamp := env.nowIso }, fs) := by
    unfold restore
    rw [h1]
  exact ⟨h2, by rw [h2], by rw [h2]⟩

/-- C5 witness: a snapshot whose integrity check reports corruption; the live
database file is untouched. -/
theorem restore_bad_snapshot_no_mutation_witness :
    restore badCheckEnv mainCfg "/data/backups/s.db" {} liveFS =
      ({ success := false, error := some "Backup file failed integrity check",
         timestamp := badCheckEnv.nowIso }, liveFS)
    ∧ (restore badCheckEnv mainCfg "/data/backups/s.db" {} liveFS).2.lookup
        ((({} : RestoreOptions).targetPath).getD mainCfg.databasePath) =
        liveFS.lookup ((({} : RestoreOptions).targetPath).getD mainCfg.databasePath)
    ∧ (restore badCheckEnv mainCfg "/data/backups/s.db" {} liveFS).1.preRestoreBackup =
        none :=
  restore_bad_snapshot_no_mutation badCheckEnv mainCfg "/data/backups/s.db" {} liveFS
    rfl (by decide)

/-- C6: `verifyBackup` is a total boolean function (it never faults), and it
returns `true` exactly when a file is present at the path, the engine's
integrity-check invocation succeeds, and its trimmed output is the canonical
`ok` token — so it returns `false` whenever the file does not exist, the
check tool's invocation errors, or the output is anything else. -/
theorem verifyBackup_true_characterization (env : Env) (fs : FS) (p : String) :
    verifyBackup env fs p = true ↔
      ∃ c out, fs.lookup p = some c ∧ env.checkCmd c = .ok out ∧
        strTrim out = "ok" := by
  unfold verifyBackup
  cases hl : fs.lookup p with
  | none =>
    by_cases hex : FS.pathExists fs p = false
    · simp [hex]
    · simp only [hex, if_false]
      simp
  | some c =>
    have hex : ¬ FS.pathExists fs p = false := by
      simp [FS.pathExists, hl]
    simp only [hex, if_false]
    cases hc : env.checkCmd c with
    | error e => simp [hc]
    | ok out => simp [hc, beq_iff_eq]

theorem find?_filter_ne_none (p : String) (l : List (String × String)) :
    (l.filter (fun e => e.1 ≠ p)).find? (fun e => e.1 == p) = none := by
  induction l with
  | nil => rfl
  | cons e rest ih =>
    by_cases he : e.1 = p
    · simp [List.filter_cons, he, ih]
    · simp [List.filter_cons, he, List.find?_cons, ih]

theorem FS.lookup_erase_self (fs : FS) (p : String) :
    (fs.erase p).lookup p = none := by
  show ((fs.files.filter (fun e => e.1 ≠ p)).find? (fun e => e.1 == p)).map (·.2) = none
  rw [find?_filter_ne_none]
  rfl

theorem strEndsWith_append (a b : String) : strEndsWith (a ++ b) b = true := by
  unfold strEndsWith
  rw [String.data_append]
  exact List.isSuffixOf_iff_suffix.mpr (List.suffix_append a.data b.data)

theorem createBackupTry_ok_shape (env : Env) (cfg : Config) (opts : BackupOptions)
    (fs : FS) (r : BackupResult)
    (h : (createBackupTry env cfg opts fs).1 = .ok r) :
    r.success = true ∧ r.backupPath = some (backupPathOf env cfg opts)
    ∧ r.filename = some (backupFileNameOf env cfg opts)
    ∧ r.size.isSome = true ∧ r.method = some opts.method
    ∧ r.error = none ∧ r.timestamp = env.nowIso := by
  unfold createBackupTry at h
  cases hp : performBackup env cfg fs opts.method (backupPathOf env cfg opts) with
  | error e => rw [hp] at h; simp at h
  | ok fs1 =>
    rw [hp] at h
    dsimp only at h
    by_cases hv : opts.verifyIntegrity = true ∧
        verifyBackup env fs1 (backupPathOf env cfg opts) = false
    · rw [if_pos hv] at h
      cases hu : env.unlinkErr (backupPathOf env cfg opts) <;>
        rw [hu] at h <;> simp at h
    · rw [if_neg hv] at h
      cases hl : fs1.lookup (backupPathOf env cfg opts) with
      | none => rw [hl] at h; simp at h
      | some content =>
        rw [hl] at h
        dsimp only at h
        simp only [Except.ok.injEq] at h
        subst h
        exact ⟨rfl, rfl, rfl, rfl, rfl, rfl, rfl⟩

/-- C7: for every input and every behaviour of the filesystem and external
commands, `createBackup` returns a tagged result value — success carrying the
backup metadata, or failure carrying an error message and the timestamp — and
never lets a fault escape; in contrast, construction does fault on invalid
input (a missing database path). -/
theorem createBackup_always_tagged_result (env : Env) (cfg : Config)
    (opts : BackupOptions) (fs : FS) :
    ((createBackup env cfg opts fs).1.success = true
        ∧ ((createBackup env cfg opts fs).1.backupPath).isSome = true
        ∧ ((createBackup env cfg opts fs).1.filename).isSome = true
        ∧ ((createBackup env cfg opts fs).1.size).isSome = true
        ∧ (createBackup env cfg opts fs).1.method = some opts.method
        ∧ (createBackup env cfg opts fs).1.error = none
      ∨ (createBackup env cfg opts fs).1.success = false
        ∧ ((createBackup env cfg opts fs).1.error).isSome = true
        ∧ (createBackup env cfg opts fs).1.timestamp = env.nowIso)
    ∧ construct { databasePath := none } fs =
        .error "Database path is required" := by
  refine ⟨?_, rfl⟩
  cases ht : createBackupTry env cfg opts fs with
  | mk res fs1 =>
    cases res with
    | error e =>
      right
      unfold createBackup
      rw [ht]
      exact ⟨rfl, rfl, rfl⟩
    | ok r =>
      left
      have hsh := createBackupTry_ok_shape env cfg opts fs r (by rw [ht])
      unfold createBackup
      rw [ht]
      refine ⟨hsh.1, ?_, ?_, hsh.2.2.2.1, hsh.2.2.2.2.1, hsh.2.2.2.2.2.1⟩
      · rw [hsh.2.1]; rfl
      · rw [hsh.2.2.1]; rfl

/-- C8: when the just-created backup file fails its post-creation integrity
check (with `verifyIntegrity` enabled and `unlinkSync` succeeding),
`createBackup` deletes that backup file before returning the failure result:
the final state holds no file at the backup path. -/
theorem createBackup_unlinks_failed_integrity (env : Env) (cfg : Config)
    (opts : BackupOptions) (fs fs1 : FS)
    (hvi : opts.verifyIntegrity = true)
    (hperf : performBackup env cfg fs opts.method (backupPathOf env cfg opts) = .ok fs1)
    (hbad : verifyBackup env fs1 (backupPathOf env cfg opts) = false)
    (hunl : env.unlinkErr (backupPathOf env cfg opts) = none) :
    createBackup env cfg opts fs =
      ({ success := false, error := some "Backup failed integrity check",
         timestamp := env.nowIso }, fs1.erase (backupPathOf env cfg opts))
    ∧ ((createBackup env cfg opts fs).2).lookup (backupPathOf env cfg opts) = none := by
  have ht : createBackupTry env cfg opts fs =
      (.error "Backup failed integrity check",
       fs1.erase (backupPathOf env cfg opts)) := by
    unfold createBackupTry
    rw [hperf]
    dsimp only
    rw [if_pos ⟨hvi, hbad⟩, hunl]
  have h2 : createBackup env cfg opts fs =
      ({ success := false, error := some "Backup failed integrity check",
         timestamp := env.nowIso }, fs1.erase (backupPathOf env cfg opts)) := by
    unfold createBackup
    rw [ht]
  refine ⟨h2, ?_⟩
  rw [h2]
  exact FS.lookup_erase_self fs1 _

/-- C8 witness: the produced backup fails the check, and the backup file is
gone from the resulting state. -/
theorem createBackup_unlinks_failed_integrity_witness :
    createBackup badCheckEnv mainCfg namedOpts liveFS =
      ({ success := false, error := some "Backup failed integrity check",
         timestamp := badCheckEnv.nowIso },
       wroteFS.erase (backupPathOf badCheckEnv mainCfg namedOpts))
    ∧ ((createBackup badCheckEnv mainCfg namedOpts liveFS).2).lookup
        (backupPathOf badCheckEnv mainCfg namedOpts) = none :=
  createBackup_unlinks_failed_integrity badCheckEnv mainCfg namedOpts liveFS wroteFS
    rfl rfl (by decide) rfl

/-- C10: `createBackup` with a method string outside
`{backup, copy, vacuum}` returns a failure result whose error message names
the unknown method, leaves the filesystem state unchanged (no file created),
and does not fault. -/
theorem createBackup_unknown_method (env : Env) (cfg : Config)
    (opts : BackupOptions) (fs : FS)
    (h1 : opts.method ≠ "backup") (h2 : opts.method ≠ "copy")
    (h3 : opts.method ≠ "vacuum") :
    createBackup env cfg opts fs =
      ({ success := false, error := some ("Unknown backup method: " ++ opts.method),
         timestamp := env.nowIso }, fs) := by
  have hp : performBackup env cfg fs opts.method (backupPathOf env cfg opts) =
      .error ("Unknown backup method: " ++ opts.method) := by
    unfold performBackup
    rw [if_neg h1, if_neg h2, if_neg h3]
  unfold createBackup createBackupTry
  rw [hp]

/-- C10 witness: method `zip`. -/
theorem createBackup_unknown_method_witness :
    createBackup badCheckEnv mainCfg { method := "zip" } liveFS =
      ({ success := false,
         error := some ("Unknown backup method: " ++
           ({ method := "zip" } : BackupOptions).method),
         timestamp := badCheckEnv.nowIso }, liveFS) :=
  createBackup_unknown_method badCheckEnv mainCfg { method := "zip" } liveFS
    (by decide) (by decide) (by decide)

/-- C9: the generated backup filename always ends in `.db`; a custom filename
gets `.db` appended exactly when it does not already end in `.db`; with no
custom filename and `includeTimestamp` enabled, the generated name embeds the
ISO timestamp with every `:` and `.` replaced by `-`. -/
theorem generateBackupFilename_spec (dbPath c iso : String) (ts : Bool)
    (custom : Option String) :
    strEndsWith (generateBackupFilename dbPath custom ts iso) ".db" = true
    ∧ generateBackupFilename dbPath (some c) ts iso =
        (if strEndsWith c ".db" = true then c else c ++ ".db")
    ∧ generateBackupFilename dbPath none true iso =
        basenameStrip dbPath ".db" ++ "-backup" ++ ("-" ++ sanitizeTimestamp iso) ++ ".db"
    ∧ ∀ ch ∈ (sanitizeTimestamp iso).data, ch ≠ ':' ∧ ch ≠ '.' := by
  refine ⟨?_, ?_, rfl, ?_⟩
  · cases custom with
    | none => exact strEndsWith_append _ _
    | some cc =>
      unfold generateBackupFilename
      dsimp only
      by_cases hc : strEndsWith cc ".db" = true
      · rw [if_pos hc]; exact hc
      · rw [if_neg hc]; exact strEndsWith_append cc ".db"
  · unfold generateBackupFilename
    rfl
  · intro ch hch
    have : ∃ c0, c0 ∈ iso.data ∧
        (if c0 = ':' || c0 = '.' then '-' else c0) = ch := by
      simpa [sanitizeTimestamp, List.mem_map] using hch
    obtain ⟨c0, _, hc0⟩ := this
    subst hc0
    by_cases h1 : (c0 = ':' || c0 = '.') = true
    · rw [if_pos h1]
      exact ⟨by decide, by decide⟩
    · rw [if_neg h1]
      simp only [Bool.or_eq_true, decide_eq_true_eq] at h1
      push_neg at h1
      exact h1

/-- C9 witness: a concrete database path, custom name and ISO timestamp. -/
theorem generateBackupFilename_spec_witness :
    strEndsWith
        (generateBackupFilename "/data/app.db" (some "snap") true
          "2026-10-11T12:00:00.000Z") ".db" = true
    ∧ generateBackupFilename "/data/app.db" (some "snap") true
          "2026-10-11T12:00:00.000Z" =
        (if strEndsWith "snap" ".db" = true then "snap" else "snap" ++ ".db")
    ∧ generateBackupFilename "/data/app.db" none true "2026-10-11T12:00:00.000Z" =
        basenameStrip "/data/app.db" ".db" ++ "-backup" ++
          ("-" ++ sanitizeTimestamp "2026-10-11T12:00:00.000Z") ++ ".db"
    ∧ ∀ ch ∈ (sanitizeTimestamp "2026-10-11T12:00:00.000Z").data,
        ch ≠ ':' ∧ ch ≠ '.' :=
  generateBackupFilename_spec "/data/app.db" "snap" "2026-10-11T12:00:00.000Z"
    true (some "snap")

end SqliteSnap
